import Mathlib

/-!
# Verification of the clippi trace-to-manifest pipeline

Shallow embedding of `src/agent/clippi_agent/agent.py` (module `clippi_agent.agent`)
together with the data model of `src/agent/clippi_agent/schemas.py`.

Python conventions are modelled as follows:
* `str` is `String`; `dict[str, str]` is an association list with first-match lookup
  (Python dict keys are unique, so first-match lookup is exact);
* an optional value / possibly-missing dict key is `Option String`
  (`none` = key absent or value `None`);
* Python truthiness of a string is non-emptiness, of a list non-emptiness;
* `str.split()` / `str.split(sep, 1)` / `str.lower()` / the regexes used by the
  source are reimplemented structurally below so that everything evaluates.

The `schemas.py` file present in the repository snapshot is a stale revision:
`agent.py` imports `ReflectedAction`, `ReflectedFlow` and `TaskTiming` from it and
reads `RecordedAction.xpath` / `RecordedAction.resulting_state`, none of which that
revision declares.  The revision of the schema module that matches `agent.py` is
therefore modelled from the spec where needed; such definitions carry a
`Modelled from the spec:` doc comment.
-/

/-! ## Python string primitives -/

/-- Python `str.split()` helper: accumulate whitespace-separated runs of a
character list (`cur` is the current run, reversed). -/
def pyWordsAux (cur : List Char) : List Char → List (List Char)
  | [] => if cur.isEmpty then [] else [cur.reverse]
  | c :: rest =>
    if c.isWhitespace then
      if cur.isEmpty then pyWordsAux [] rest
      else cur.reverse :: pyWordsAux [] rest
    else pyWordsAux (c :: cur) rest

/-- Python `s.split()`: split on whitespace runs, dropping empty tokens. -/
def pysplit (s : String) : List String :=
  (pyWordsAux [] s.data).map String.mk

/-- Find the first occurrence of `sep` in a character list, returning the parts
before and after it. -/
def listSplitOnce (sep : List Char) : List Char → Option (List Char × List Char)
  | [] => if sep.isEmpty then some ([], []) else none
  | c :: rest =>
    if sep.isPrefixOf (c :: rest) then some ([], (c :: rest).drop sep.length)
    else match listSplitOnce sep rest with
      | some (a, b) => some (c :: a, b)
      | none => none

/-- Python `s.split(sep, 1)`: at most one split, at the first occurrence. -/
def pySplitOnce (sep s : String) : List String :=
  match listSplitOnce sep.data s.data with
  | some (a, b) => [String.mk a, String.mk b]
  | none => [s]

/-- Python `lst[-1]` on a non-empty list (with a default for totality). -/
def pyLastD (l : List String) (d : String) : String :=
  l.getLastD d

/-- Python `str.lower()` (exact on ASCII, which is all the pipeline compares). -/
def strLower (s : String) : String :=
  String.mk (s.data.map Char.toLower)

/-- Python substring test `needle in hay` on character lists. -/
def isSubList (needle : List Char) : List Char → Bool
  | [] => needle.isEmpty
  | c :: rest => needle.isPrefixOf (c :: rest) || isSubList needle rest

/-- Python `needle in hay` for strings. -/
def strContainsSub (hay needle : String) : Bool :=
  isSubList needle.data hay.data

/-- Python `x or d` for an optional string `x` (empty string is falsy). -/
def pyOrD (x : Option String) (d : String) : String :=
  match x with
  | some s => if s = "" then d else s
  | none => d

/-- Python `x or y` where both sides are optional strings. -/
def pyOrOpt (x y : Option String) : Option String :=
  match x with
  | some s => if s = "" then y else some s
  | none => y

/-- Python `list(dict.fromkeys(...))`: deduplicate preserving first occurrence. -/
def dedupAux (seen : List String) : List String → List String
  | [] => []
  | w :: rest => if seen.contains w then dedupAux seen rest
                 else w :: dedupAux (w :: seen) rest

/-- First-match lookup in an association list (Python dict access / `.get`). -/
def lookupAttr (attrs : List (String × String)) (k : String) : Option String :=
  (attrs.find? (fun p => p.1 == k)).map (·.2)

/-! ## Data model (`schemas.py`) -/

/-- The selector strategy vocabulary.  `agent.py` constructs exactly these five
values; the spec's data model (§3) and manifest JSON schema (§6) list
`{testId, xpath, aria, css, text}`.  (The stale `schemas.py` revision in the
snapshot omits `xpath` from its `Literal`; the revision matching `agent.py` is
modelled from the spec here.) -/
inductive StrategyType where
  | testId
  | xpath
  | aria
  | css
  | text
deriving DecidableEq

/-- `schemas.SelectorStrategy`: one way to locate an element. -/
structure SelectorStrategy where
  type : StrategyType
  value : String
  tag : Option String := none
deriving DecidableEq

/-- `schemas.Selector`: fallback-ordered strategies for one element. -/
structure Selector where
  strategies : List SelectorStrategy
deriving DecidableEq

/-- `schemas.SuccessCondition`.  The Python field `exists` is a Lean keyword and
is named `exists_sel` here. -/
structure SuccessCondition where
  url_contains : Option String := none
  url_matches : Option String := none
  visible : Option String := none
  exists_sel : Option String := none
  click : Option Bool := none
deriving DecidableEq

/-- One element of a `resulting_state` diff list (`elements_added` /
`elements_modified` entries built by `_compute_and_assign_dom_diffs`): a dict
with a `tag`, an attribute map, and (for modified elements) a `changed` marker. -/
structure DiffElement where
  tag : Option String := none
  attributes : List (String × String) := []
  changed : Option String := none
deriving DecidableEq

/-- Modelled from the spec: the resulting-state diff attached to a canonical
action (§3 `DiffResult`, stored on the action as a dict with optional
`elements_added` / `elements_modified` keys).  `none` = key absent. -/
structure ResultingState where
  elements_added : Option (List DiffElement) := none
  elements_modified : Option (List DiffElement) := none
deriving DecidableEq

/-- Python truthiness of the `resulting_state` dict: non-empty, i.e. at least
one of its keys is present. -/
def rsTruthy (rs : ResultingState) : Bool :=
  rs.elements_added.isSome || rs.elements_modified.isSome

/-- `schemas.RecordedAction`.  The fields `xpath` and `resulting_state` are
modelled from the spec (§3 `CanonicalAction`: element path and optional
resulting-state diff), since the stale schema revision omits them while
`agent.py` constructs and reads both.  The diagnostic fields `timestamp` and
`screenshot_path` are not modelled (no claim mentions them). -/
structure RecordedAction where
  action_type : String
  element_tag : Option String := none
  element_text : Option String := none
  element_attributes : List (String × String) := []
  xpath : Option String := none
  input_value : Option String := none
  url_before : String := ""
  url_after : String := ""
  resulting_state : Option ResultingState := none
deriving DecidableEq

/-- The element dict carried by a reflected step (`step.element`), with keys
`tag`, `text`, `attributes`, `xpath` as filled in by `_enrich_reflected_from_raw`
and `_raw_actions_to_reflected`. -/
structure ReflElement where
  tag : Option String := none
  text : Option String := none
  attributes : List (String × String) := []
  xpath : Option String := none
deriving DecidableEq

/-- Modelled from the spec: `ReflectedAction` (§4.5 `ReconciledStep`), the
structured step returned by the reduction collaborator — instruction text,
canonical action type, index into the source action list (or none), input value
and the `isFinal` flag — plus the element payload the pipeline attaches. -/
structure ReflectedAction where
  action : String
  instruction : String
  source_action_index : Option Int := none
  element : ReflElement := {}
  input_value : Option String := none
  is_final : Bool := false
deriving DecidableEq

/-- `schemas.PathStep`: one manifest path entry. -/
structure PathStep where
  selector : Selector
  instruction : String
  action : String := "click"
  input : Option String := none
  success_condition : Option SuccessCondition := none
  final : Bool := false
deriving DecidableEq

/-- The `element_info` dict passed to `extract_selectors_from_element`:
possibly-missing keys `attributes`, `xpath`, `tag`, `text`. -/
structure ElementInfo where
  attributes : List (String × String) := []
  xpath : Option String := none
  tag : Option String := none
  text : Option String := none
deriving DecidableEq

/-! ## Selector Strategy Builder (`extract_selectors_from_element`) -/

/-- Priority 1: `data-testid` attribute (key presence, value used verbatim). -/
def testIdStrategies (attrs : List (String × String)) : List SelectorStrategy :=
  match lookupAttr attrs "data-testid" with
  | some v => [{ type := .testId, value := v }]
  | none => []

/-- Priority 2: xpath (`"xpath" in element_info and element_info["xpath"]`). -/
def xpathStrategies (xp : Option String) : List SelectorStrategy :=
  match xp with
  | some v => if v = "" then [] else [{ type := .xpath, value := v }]
  | none => []

/-- Priority 3: `aria-label` attribute (key presence, value used verbatim). -/
def ariaStrategies (attrs : List (String × String)) : List SelectorStrategy :=
  match lookupAttr attrs "aria-label" with
  | some v => [{ type := .aria, value := v }]
  | none => []

/-- Priority 3 (second clause): ID-based CSS selector (`id` present and truthy). -/
def idCssStrategies (attrs : List (String × String)) : List SelectorStrategy :=
  match lookupAttr attrs "id" with
  | some v => if v = "" then [] else [{ type := .css, value := "#" ++ v }]
  | none => []

/-- "Specific-looking" class filter: longer than 5 characters or containing a
hyphen. -/
def isSpecificClass (c : String) : Bool :=
  decide (5 < c.length) || c.data.contains '-'

/-- Priority 4: class-based CSS selector from up to two specific-looking
classes, prefixed with the tag when the tag is truthy. -/
def classCssStrategies (attrs : List (String × String)) (tag : Option String) :
    List SelectorStrategy :=
  match lookupAttr attrs "class" with
  | some cls =>
    if cls = "" then []
    else
      let specific := (pysplit cls).filter isSpecificClass
      if specific.isEmpty then []
      else
        let sel := "." ++ String.intercalate "." (specific.take 2)
        let t := tag.getD ""
        [{ type := .css, value := if t = "" then sel else t ++ sel }]
  | none => []

/-- Priority 5: text strategy from whitespace-normalized element text, only if
non-empty and under 50 characters; the tag filter is attached only for the
fixed tag set. -/
def textStrategies (text tag : Option String) : List SelectorStrategy :=
  let t := String.intercalate " " (pysplit (text.getD ""))
  let tg := tag.getD ""
  if t ≠ "" ∧ t.length < 50 then
    [{ type := .text, value := t,
       tag := if ["button", "a", "span", "div", "label"].contains tg then some tg
              else none }]
  else []

/-- `agent.extract_selectors_from_element`: append the strategies of priorities
1-5 in order; if none applied, synthesize a single css strategy from the tag
(defaulting to `"div"` when the `tag` key is absent). -/
def extract_selectors_from_element (e : ElementInfo) : Selector :=
  let strategies :=
    testIdStrategies e.attributes ++ xpathStrategies e.xpath ++
    ariaStrategies e.attributes ++ idCssStrategies e.attributes ++
    classCssStrategies e.attributes e.tag ++ textStrategies e.text e.tag
  if strategies.isEmpty then { strategies := [{ type := .css, value := e.tag.getD "div" }] }
  else { strategies := strategies }

/-! ## Success Condition Inferencer (`infer_success_condition`) -/

/-- The `for el in added` loop: return on the first element carrying
`data-testid` (attribute selector) or, failing that within the same element,
`id` (`#id`); otherwise keep scanning. -/
def addedLoop : List DiffElement → Option SuccessCondition
  | [] => none
  | el :: rest =>
    match lookupAttr el.attributes "data-testid" with
    | some v => some { visible := some ("[data-testid='" ++ v ++ "']") }
    | none =>
      match lookupAttr el.attributes "id" with
      | some v => some { visible := some ("#" ++ v) }
      | none => addedLoop rest

/-- Fallback after the loop: first added element's tag + first class when a
truthy `class` attribute exists, else its bare tag.  (On a whitespace-only
class string Python would raise `IndexError` at `classes[0]`; the `headD ""`
default stands in for that unreachable-by-construction case.) -/
def addedFallback (first : DiffElement) : SuccessCondition :=
  let tag := first.tag.getD "div"
  match lookupAttr first.attributes "class" with
  | some cls =>
    if cls = "" then { visible := some tag }
    else { visible := some (tag ++ "." ++ (pysplit cls).headD "") }
  | none => { visible := some tag }

/-- The `elements_added` branch: if the list is truthy it always produces a
condition (loop hit or fallback). -/
def addedCondition : List DiffElement → Option SuccessCondition
  | [] => none
  | first :: rest =>
    match addedLoop (first :: rest) with
    | some c => some c
    | none => some (addedFallback first)

/-- The `for el in modified` loop: first element with `id` (appending its last
class token when `changed == "class"` and a truthy class exists), else with
`data-testid`; the loop can fall through without producing a condition. -/
def modifiedLoop : List DiffElement → Option SuccessCondition
  | [] => none
  | el :: rest =>
    match lookupAttr el.attributes "id" with
    | some v =>
      let sel := "#" ++ v
      let sel :=
        if el.changed = some "class" then
          match lookupAttr el.attributes "class" with
          | some cls =>
            let classes := pysplit cls
            if classes.isEmpty then sel else sel ++ "." ++ classes.getLastD ""
          | none => sel
        else sel
      some { visible := some sel }
    | none =>
      match lookupAttr el.attributes "data-testid" with
      | some v => some { visible := some ("[data-testid='" ++ v ++ "']") }
      | none => modifiedLoop rest

/-- The `if action.resulting_state:` body: added elements first, then modified
elements; `none` means execution falls through to the action-type default. -/
def stateCondition (rs : ResultingState) : Option SuccessCondition :=
  let fromAdded :=
    match rs.elements_added with
    | some added => addedCondition added
    | none => none
  match fromAdded with
  | some c => some c
  | none =>
    match rs.elements_modified with
    | some modified => modifiedLoop modified
    | none => none

/-- `agent.infer_success_condition`.  Note that the `next_action` parameter is
never read by the body, and that the URL-changed branch only returns when the
post-action URL has a `/` after the host — otherwise execution falls through to
the resulting-state and action-type rules. -/
def infer_success_condition (action : RecordedAction)
    (next_action : Option RecordedAction) : Option SuccessCondition :=
  let urlPart : Option SuccessCondition :=
    if action.url_after ≠ action.url_before then
      let path := pySplitOnce "/" (pyLastD (pySplitOnce "://" action.url_after) "")
      if 1 < path.length then some { url_contains := some ("/" ++ path.getD 1 "") }
      else none
    else none
  match urlPart with
  | some c => some c
  | none =>
    let statePart : Option SuccessCondition :=
      match action.resulting_state with
      | some rs => if rsTruthy rs then stateCondition rs else none
      | none => none
    match statePart with
    | some c => some c
    | none =>
      if action.action_type = "click" ∨ action.action_type = "type" ∨
         action.action_type = "select" then
        some { click := some true }
      else none

/-! ## Keyword extraction (`extract_keywords`) -/

/-- The stop-word set of `extract_keywords`. -/
def keywordStopWords : List String :=
  ["how", "to", "do", "i", "the", "a", "an", "my", "our", "is", "are", "this",
   "that", "can", "will", "be", "have", "has", "for", "on", "in", "of", "and",
   "or"]

/-- Python `\w` (word character) as used by the `\b` boundaries of
`re.findall(r"\b[a-z]+\b", text)` — alphanumeric or underscore (ASCII scope). -/
def isWordChar (c : Char) : Bool :=
  c.isAlphanum || c == '_'

/-- Is `c` in the `[a-z]` character class? -/
def isLowerAZ (c : Char) : Bool :=
  'a' ≤ c && c ≤ 'z'

/-- `re.findall(r"\b[a-z]+\b", ·)` as a left-to-right scan.  `prevW` records
whether the previous character was a word character, `cur` is the current
(reversed) `[a-z]` run, and `runOk` whether that run started at a `\b`
boundary; a run is emitted only when it also ends at a boundary. -/
def regexFindAux (prevW runOk : Bool) (cur : List Char) : List Char → List (List Char)
  | [] => if !cur.isEmpty && runOk then [cur.reverse] else []
  | c :: rest =>
    if isLowerAZ c then
      if cur.isEmpty then regexFindAux true (!prevW) [c] rest
      else regexFindAux true runOk (c :: cur) rest
    else
      (if !cur.isEmpty && runOk && !isWordChar c then [cur.reverse] else []) ++
      regexFindAux (isWordChar c) true [] rest

/-- All `\b[a-z]+\b` matches of a string, in order. -/
def regexWordTokens (s : String) : List String :=
  (regexFindAux false true [] s.data).map String.mk

/-- `agent.extract_keywords`: lower-case `f"{description} {label}"`, take the
`\b[a-z]+\b` matches, drop stop-words and tokens of length ≤ 2, deduplicate
preserving first occurrence, cap at 10. -/
def extract_keywords (description label : String) : List String :=
  let text := strLower (description ++ " " ++ label)
  let words := regexWordTokens text
  let keywords :=
    dedupAux [] (words.filter (fun w => !keywordStopWords.contains w && decide (2 < w.length)))
  keywords.take 10

/-- The keyword list as claim C6 states it (spec §4.6): tokens of the
description followed by tokens of the label, stop-words removed, deduplicated
preserving first occurrence, capped at 10 — and no other token filtered out.
Written from the claim's words, for comparison with `extract_keywords`. -/
def keywordsByClaim (description label : String) : List String :=
  let toks := regexWordTokens (strLower description) ++ regexWordTokens (strLower label)
  (dedupAux [] (toks.filter (fun w => !keywordStopWords.contains w))).take 10

/-- The keyword list as claim C6 must be amended: additionally, tokens of
length ≤ 2 are removed (the code's `len(w) > 2` filter). -/
def keywordsByAmendedClaim (description label : String) : List String :=
  let toks := regexWordTokens (strLower description) ++ regexWordTokens (strLower label)
  (dedupAux [] (toks.filter (fun w => !keywordStopWords.contains w && decide (2 < w.length)))).take 10

/-! ## Target id generation (`generate_id_from_description`) -/

/-- The stop-word set of `generate_id_from_description`. -/
def idStopWords : List String :=
  ["how", "to", "do", "i", "the", "a", "an", "my", "our"]

/-- `re.sub(r"[^a-z0-9]", "", word)`: keep only lowercase letters and digits. -/
def keepAlnumLower (w : String) : String :=
  String.mk (w.data.filter (fun c => isLowerAZ c || ('0' ≤ c && c ≤ '9')))

/-- `agent.generate_id_from_description`: lower-case and whitespace-split the
description, drop stop-words, take the first four words, strip non-`[a-z0-9]`
characters, drop words that became empty, join with hyphens (placeholder id
when nothing remains). -/
def generate_id_from_description (description : String) : String :=
  let words := (pysplit (strLower description)).filter (fun w => !idStopWords.contains w)
  let words := words.take 4
  let cleaned := (words.map keepAlnumLower).filter (fun w => w ≠ "")
  if cleaned.isEmpty then "unnamed-task" else String.intercalate "-" cleaned

/-! ## Instruction text (`ClippiAgent._generate_instruction`) -/

/-- `ClippiAgent._clean_element_text`: collapse whitespace and trim
(`" ".join(text.split()).strip()`, with `None` → `""`). -/
def cleanElementText (text : Option String) : String :=
  String.intercalate " " (pysplit (text.getD ""))

/-- `ClippiAgent._generate_instruction`: fixed rule set for human-readable
instruction text. -/
def generateInstruction (a : RecordedAction) : String :=
  let text := cleanElementText a.element_text
  if a.action_type = "click" then
    if text ≠ "" then "Click on \"" ++ text ++ "\""
    else if (a.element_tag.getD "") ≠ "" then "Click the " ++ a.element_tag.getD ""
    else "Click here"
  else if a.action_type = "type" then
    if text ≠ "" then "Type in the \"" ++ text ++ "\" field" else "Enter text"
  else if a.action_type = "select" then
    match a.input_value with
    | some v => if v ≠ "" then "Select \"" ++ v ++ "\"" else "Select an option"
    | none => "Select an option"
  else "Perform action"

/-! ## Step Reconciler (`_reflect_on_actions` and its fallback) -/

/-- Python `steps[-1].is_final = True` / `reflected[-1].is_final = True`:
set the flag on the last entry, leaving the rest untouched. -/
def markLastFinal : List ReflectedAction → List ReflectedAction
  | [] => []
  | [s] => [{ s with is_final := true }]
  | s :: t :: rest => s :: markLastFinal (t :: rest)

/-- The defensive flag pass of `_reflect_on_actions`: force `is_final = False`
on every step, then set it on the last step only. -/
def forceFinalFlags (steps : List ReflectedAction) : List ReflectedAction :=
  markLastFinal (steps.map (fun s => { s with is_final := false }))

/-- The element dict written by `_enrich_reflected_from_raw` /
`_raw_actions_to_reflected` for a raw action. -/
def elementOfRaw (a : RecordedAction) : ReflElement :=
  { tag := some (pyOrD a.element_tag "div"),
    text := some (pyOrD a.element_text ""),
    attributes := a.element_attributes,
    xpath := a.xpath }

/-- `ClippiAgent._enrich_reflected_from_raw`: overwrite each step's element
dict from the raw action at its `source_action_index` when that index is in
range; steps with a null or out-of-range index are left as supplied. -/
def enrichReflected (steps : List ReflectedAction) (raw : List RecordedAction) :
    List ReflectedAction :=
  steps.map (fun s =>
    match s.source_action_index with
    | some idx =>
      if 0 ≤ idx ∧ idx < (raw.length : Int) then
        match raw.get? idx.toNat with
        | some a => { s with element := elementOfRaw a }
        | none => s
      else s
    | none => s)

/-- Is a raw action kept by the fallback conversion
(`action.action_type not in ("click", "type", "select")` → dropped)? -/
def isInteractiveType (a : RecordedAction) : Bool :=
  a.action_type == "click" || a.action_type == "type" || a.action_type == "select"

/-- One fallback `ReflectedAction` built from the raw action at index `i`. -/
def fallbackReflected (i : Nat) (a : RecordedAction) : ReflectedAction :=
  { action := a.action_type,
    instruction := generateInstruction a,
    source_action_index := some (i : Int),
    element := elementOfRaw a,
    input_value := a.input_value,
    is_final := false }

/-- The `for i, action in enumerate(raw_actions)` loop of
`_raw_actions_to_reflected`, with `i` the running index. -/
def rawToReflectedAux (i : Nat) : List RecordedAction → List ReflectedAction
  | [] => []
  | a :: rest =>
    (if isInteractiveType a then [fallbackReflected i a] else []) ++
    rawToReflectedAux (i + 1) rest

/-- `ClippiAgent._raw_actions_to_reflected`: deterministic fallback conversion
of the click/type/select raw actions, marking the last converted entry final. -/
def rawActionsToReflected (raw : List RecordedAction) : List ReflectedAction :=
  markLastFinal (rawToReflectedAux 0 raw)

/-- Outcome of the reduction-collaborator call inside the `try` block of
`_reflect_on_actions`: a structured `ReflectedFlow` (its `steps` list), a
completion that is not a `ReflectedFlow`, or a raised exception. -/
inductive CollabOutcome where
  | ok (steps : List ReflectedAction)
  | notFlow
  | raised
deriving DecidableEq

/-- `ClippiAgent._reflect_on_actions`, with the awaited collaborator call
abstracted into its outcome: on a well-formed non-empty step list, force the
final flags and enrich from the raw trace; on an exception, a non-`ReflectedFlow`
result or an empty step list, fall back to `_raw_actions_to_reflected`. -/
def reflectOnActions (outcome : CollabOutcome) (raw : List RecordedAction) :
    List ReflectedAction :=
  match outcome with
  | .ok steps =>
    if steps.isEmpty then rawActionsToReflected raw
    else enrichReflected (forceFinalFlags steps) raw
  | .notFlow => rawActionsToReflected raw
  | .raised => rawActionsToReflected raw

/-! ## Manifest Assembler: path builders -/

/-- The generic click success condition `SuccessCondition(click=True)`. -/
def clickCondition : SuccessCondition := { click := some true }

/-- `ClippiAgent._build_path_from_reflected`: one `PathStep` per reflected step;
the selector is rebuilt from the step's element dict and the success condition
is always the generic click condition. -/
def buildPathFromReflected (steps : List ReflectedAction) : List PathStep :=
  steps.map (fun s =>
    let e : ElementInfo :=
      { tag := some (s.element.tag.getD "div"),
        text := some (s.element.text.getD ""),
        attributes := s.element.attributes,
        xpath := pyOrOpt (lookupAttr s.element.attributes "xpath") s.element.xpath }
    { selector := extract_selectors_from_element e,
      instruction := s.instruction,
      action := s.action,
      input := s.input_value,
      success_condition := some clickCondition,
      final := s.is_final })

/-- Is a raw action skipped by `_build_path_from_raw_actions`
(`action.action_type in ("navigate", "scroll")`)? -/
def skipNav (a : RecordedAction) : Bool :=
  a.action_type == "navigate" || a.action_type == "scroll"

/-- `raw_actions[-1].action_type in ("navigate", "scroll")` (false on an empty
list, which never occurs inside the loop). -/
def lastIsNavScroll (raw : List RecordedAction) : Bool :=
  match raw.getLast? with
  | some a => skipNav a
  | none => false

/-- The `element_info` dict built for a raw action in
`_build_path_from_raw_actions`. -/
def elemInfoOfRaw (a : RecordedAction) : ElementInfo :=
  { tag := some (pyOrD a.element_tag "div"),
    text := some (pyOrD a.element_text ""),
    attributes := a.element_attributes,
    xpath := a.xpath }

/-- The `is_final` flag of `_build_path_from_raw_actions`:
`i == len(raw) - 1 or (i == len(raw) - 2 and raw[-1].action_type in ("navigate", "scroll"))`
(computed over `Int` to match Python's signed arithmetic). -/
def rawStepFinal (raw : List RecordedAction) (i : Nat) : Bool :=
  decide ((i : Int) = (raw.length : Int) - 1) ||
  (decide ((i : Int) = (raw.length : Int) - 2) && lastIsNavScroll raw)

/-- The `PathStep` built for the raw action at index `i` by
`_build_path_from_raw_actions`. -/
def mkRawStep (raw : List RecordedAction) (i : Nat) (a : RecordedAction) : PathStep :=
  { selector := extract_selectors_from_element (elemInfoOfRaw a),
    instruction := generateInstruction a,
    action := if ["click", "type", "select", "clear"].contains a.action_type
              then a.action_type else "click",
    input := a.input_value,
    success_condition := infer_success_condition a (raw.get? (i + 1)),
    final := rawStepFinal raw i }

/-- The `for i, action in enumerate(raw_actions)` loop of
`_build_path_from_raw_actions` over the suffix starting at index `i`. -/
def buildRawAux (raw : List RecordedAction) (i : Nat) :
    List RecordedAction → List PathStep
  | [] => []
  | a :: rest =>
    (if skipNav a then [] else [mkRawStep raw i a]) ++ buildRawAux raw (i + 1) rest

/-- `ClippiAgent._build_path_from_raw_actions` (legacy/fallback pipeline). -/
def buildPathFromRawActions (raw : List RecordedAction) : List PathStep :=
  buildRawAux raw 0 raw

/-! ## Action Canonicalizer (`_parse_action_type` and the per-action slice of
`_extract_actions_from_history`) -/

/-- The `ACTION_MAP` of `_parse_action_type`. -/
def ACTION_MAP : List (String × String) :=
  [("click", "click"), ("click_element", "click"), ("input", "type"),
   ("input_text", "type"), ("type", "type"), ("send_keys", "type"),
   ("select_dropdown", "select"), ("select_dropdown_option", "select"),
   ("select", "select")]

/-- The `SKIP_ACTIONS` set of `_parse_action_type`. -/
def SKIP_ACTIONS : List String :=
  ["navigate", "go_back", "scroll", "find_elements", "search_page", "extract",
   "screenshot", "read_content", "wait", "search", "switch_tab", "close_tab",
   "done", "get_dropdown_options", "upload_file"]

/-- `ClippiAgent._parse_action_type`: `"evaluate"` is passed through, skip-set
entries are dropped, known names are mapped, unknown names fall back to
substring matching, anything else is dropped. -/
def parse_action_type (action_name : String) : Option String :=
  if action_name = "evaluate" then some "evaluate"
  else if SKIP_ACTIONS.contains action_name then none
  else
    match lookupAttr ACTION_MAP action_name with
    | some t => some t
    | none =>
      let n := strLower action_name
      if strContainsSub n "click" then some "click"
      else if strContainsSub n "input" || strContainsSub n "type" then some "type"
      else if strContainsSub n "select" then some "select"
      else none

/-- A parsed JSON value, the result of `json.loads` on an evaluate action's
`extracted_content` payload. -/
inductive JsonVal where
  | null
  | jbool (b : Bool)
  | jnum (n : Int)
  | jstr (s : String)
  | jarr (xs : List JsonVal)
  | jobj (fields : List (String × JsonVal))

/-- First-match field lookup in a JSON object. -/
def lookupJson (fields : List (String × JsonVal)) (k : String) : Option JsonVal :=
  (fields.find? (fun p => p.1 == k)).map (·.2)

/-- Python `str(v)` on a JSON scalar, as used by the attribute sanitization
`{str(k): str(v) for ...}`.  (Container values would stringify to their Python
repr; the agent's prompt only ever produces scalars there, and no claim
depends on that corner, so containers map to `""` here.) -/
def pyStr : JsonVal → String
  | .null => "None"
  | .jbool b => if b then "True" else "False"
  | .jnum n => toString n
  | .jstr s => s
  | .jarr _ => ""
  | .jobj _ => ""

/-- The attribute sanitization of the evaluate branch: keep non-`None` values,
stringified. -/
def sanitizeJsonAttrs (fields : List (String × JsonVal)) : List (String × String) :=
  fields.filterMap (fun p =>
    match p.2 with
    | .null => none
    | v => some (p.1, pyStr v))

/-- The per-action slice of `ClippiAgent._extract_actions_from_history`:
map the action name through `_parse_action_type`; for an `evaluate` action
whose payload parsed as a JSON object with a string `tag` field, overwrite the
element info from the payload and turn the action into a click; if the action
is still of type `evaluate` after that, skip it entirely (record nothing);
otherwise record one `RecordedAction`.  `payload = none` covers a missing,
empty or unparseable `extracted_content`.  (A payload object whose `tag` is a
non-string, or whose `attributes` is not an object, makes the Python overwrite
raise inside its `try` and leaves the action type `evaluate`, so the action is
skipped in those corners too.) -/
def processHistoryAction (action_name : String) (payload : Option JsonVal)
    (elem0 : ElementInfo) (input_value : Option String)
    (url_before url_after : String) : Option RecordedAction :=
  match parse_action_type action_name with
  | none => none
  | some ty0 =>
    let tyElem : String × ElementInfo :=
      if action_name = "evaluate" then
        match payload with
        | some (.jobj fields) =>
          match lookupJson fields "tag", (lookupJson fields "attributes").getD (.jobj []) with
          | some (.jstr t), .jobj attrFields =>
            ("click",
             { tag := some (strLower t),
               text := some (pyStr ((lookupJson fields "text").getD (.jstr ""))),
               attributes := sanitizeJsonAttrs attrFields,
               xpath := elem0.xpath })
          | _, _ => (ty0, elem0)
        | _ => (ty0, elem0)
      else (ty0, elem0)
    if tyElem.1 = "evaluate" then none
    else some
      { action_type := tyElem.1,
        element_tag := tyElem.2.tag,
        element_text := tyElem.2.text,
        element_attributes := tyElem.2.attributes,
        xpath := tyElem.2.xpath,
        input_value := input_value,
        url_before := url_before,
        url_after := url_after,
        resulting_state := none }

/-! ## Checkpoint/Resume Manager (`_load_partial_manifest`, `generate_manifest`) -/

/-- `schemas.AgentTask` (the fields the embedded logic reads). -/
structure AgentTask where
  description : String
deriving DecidableEq

/-- `schemas.ManifestTarget` (the fields the embedded logic reads; `category`,
`conditions` and `on_blocked` keep their defaults throughout the pipeline). -/
structure ManifestTarget where
  id : String
  selector : Selector := { strategies := [] }
  label : String := ""
  description : String := ""
  keywords : List String := []
  path : Option (List PathStep) := none
deriving DecidableEq

/-- Result of attempting to read and parse the `.part` checkpoint file:
missing file, unreadable/unparseable file, or a parsed target list. -/
inductive PartRead where
  | missing
  | failed
  | ok (targets : List ManifestTarget)

/-- `ClippiAgent._load_partial_manifest`: `(targets, completed_ids)`, with both
empty when the file is missing or anything in read/parse raises (the
`except (json.JSONDecodeError, Exception)` clause catches every exception).
The Python id set is modelled as the list of ids. -/
def loadPartialManifest : PartRead → List ManifestTarget × List String
  | .missing => ([], [])
  | .failed => ([], [])
  | .ok ts => (ts, ts.map (·.id))

/-- The per-task batch loop of `ClippiAgent.generate_manifest`, with the
exploration-and-conversion of one task (`explore_task` + `convert_flow_to_target`,
an external, effectful collaborator round-trip) abstracted as `explore`:
resume from the checkpoint, skip every task whose generated id is in the
completed set, append each newly generated target. -/
def generateManifestTargets (explore : AgentTask → Option ManifestTarget)
    (tasks : List AgentTask) (read : PartRead) : List ManifestTarget :=
  let init := loadPartialManifest read
  tasks.foldl (fun acc task =>
    if init.2.contains (generate_id_from_description task.description) then acc
    else
      match explore task with
      | some t => acc ++ [t]
      | none => acc) init.1

/-! ## Helper lemmas about the selector builder components -/

theorem testIdStrategies_nil {attrs : List (String × String)}
    (h : lookupAttr attrs "data-testid" = none) : testIdStrategies attrs = [] := by
  simp [testIdStrategies, h]

theorem xpathStrategies_nil {xp : Option String} (h : xp.getD "" = "") :
    xpathStrategies xp = [] := by
  cases xp with
  | none => rfl
  | some v => simp only [Option.getD] at h; simp [xpathStrategies, h]

theorem ariaStrategies_nil {attrs : List (String × String)}
    (h : lookupAttr attrs "aria-label" = none) : ariaStrategies attrs = [] := by
  simp [ariaStrategies, h]

theorem idCssStrategies_nil {attrs : List (String × String)}
    (h : (lookupAttr attrs "id").getD "" = "") : idCssStrategies attrs = [] := by
  cases hv : lookupAttr attrs "id" with
  | none => simp [idCssStrategies, hv]
  | some v => rw [hv] at h; simp only [Option.getD] at h; simp [idCssStrategies, hv, h]

theorem classCssStrategies_nil {attrs : List (String × String)} {tag : Option String}
    (h : ((pysplit ((lookupAttr attrs "class").getD "")).filter isSpecificClass) = []) :
    classCssStrategies attrs tag = [] := by
  cases hv : lookupAttr attrs "class" with
  | none => simp [classCssStrategies, hv]
  | some cls =>
    rw [hv] at h
    simp only [Option.getD] at h
    by_cases hc : cls = ""
    · simp [classCssStrategies, hv, hc]
    · simp [classCssStrategies, hv, hc, h]

theorem textStrategies_nil {text tag : Option String}
    (h : ¬(String.intercalate " " (pysplit (text.getD "")) ≠ "" ∧
           (String.intercalate " " (pysplit (text.getD ""))).length < 50)) :
    textStrategies text tag = [] := by
  simp only [textStrategies]
  exact if_neg h

theorem mem_testIdStrategies_type {attrs : List (String × String)} {s : SelectorStrategy}
    (h : s ∈ testIdStrategies attrs) : s.type = StrategyType.testId := by
  unfold testIdStrategies at h
  cases hv : lookupAttr attrs "data-testid" <;> rw [hv] at h <;> simp at h
  rw [h]

theorem mem_ariaStrategies_type {attrs : List (String × String)} {s : SelectorStrategy}
    (h : s ∈ ariaStrategies attrs) : s.type = StrategyType.aria := by
  unfold ariaStrategies at h
  cases hv : lookupAttr attrs "aria-label" <;> rw [hv] at h <;> simp at h
  rw [h]

theorem mem_idCssStrategies_type {attrs : List (String × String)} {s : SelectorStrategy}
    (h : s ∈ idCssStrategies attrs) : s.type = StrategyType.css := by
  unfold idCssStrategies at h
  cases hv : lookupAttr attrs "id" <;> rw [hv] at h
  · simp at h
  · rename_i v
    by_cases he : v = "" <;> simp [he] at h
    rw [h]

theorem mem_classCssStrategies_type {attrs : List (String × String)} {tag : Option String}
    {s : SelectorStrategy} (h : s ∈ classCssStrategies attrs tag) :
    s.type = StrategyType.css := by
  unfold classCssStrategies at h
  cases hv : lookupAttr attrs "class" <;> rw [hv] at h
  · simp at h
  · rename_i cls
    by_cases he : cls = ""
    · simp [he] at h
    · simp only [he, if_false] at h
      by_cases hs : ((pysplit cls).filter isSpecificClass).isEmpty <;> simp [hs] at h
      rw [h]

theorem mem_textStrategies_type {text tag : Option String} {s : SelectorStrategy}
    (h : s ∈ textStrategies text tag) : s.type = StrategyType.text := by
  unfold textStrategies at h
  dsimp only at h
  split at h
  · simp at h; rw [h]
  · simp at h

/-- C3: for every element-info input the selector builder returns at least one
strategy; and when none of the attribute-, path-, class-, or text-based
strategies applies, the single entry is a css strategy equal to the element's
tag name, defaulting to `"div"` when the tag is unknown. -/
theorem selector_nonempty_and_tag_default :
    (∀ e : ElementInfo, (extract_selectors_from_element e).strategies ≠ []) ∧
    (∀ e : ElementInfo,
      lookupAttr e.attributes "data-testid" = none →
      e.xpath.getD "" = "" →
      lookupAttr e.attributes "aria-label" = none →
      (lookupAttr e.attributes "id").getD "" = "" →
      ((pysplit ((lookupAttr e.attributes "class").getD "")).filter isSpecificClass) = [] →
      ¬(String.intercalate " " (pysplit (e.text.getD "")) ≠ "" ∧
        (String.intercalate " " (pysplit (e.text.getD ""))).length < 50) →
      extract_selectors_from_element e =
        { strategies := [{ type := .css, value := e.tag.getD "div", tag := none }] }) := by
  constructor
  · intro e
    unfold extract_selectors_from_element
    dsimp only
    split
    · simp
    · next h => simpa using h
  · intro e h1 h2 h3 h4 h5 h6
    unfold extract_selectors_from_element
    rw [testIdStrategies_nil h1, xpathStrategies_nil h2, ariaStrategies_nil h3,
        idCssStrategies_nil h4, classCssStrategies_nil h5, textStrategies_nil h6]
    rfl

/-- Witness for C3 at the element with no attributes, no text, no path and no
tag: the builder returns exactly the synthesized `css "div"` strategy. -/
theorem selector_nonempty_and_tag_default_witness :
    (extract_selectors_from_element {}).strategies ≠ [] ∧
    extract_selectors_from_element {} =
      { strategies := [{ type := .css, value := "div", tag := none }] } :=
  ⟨selector_nonempty_and_tag_default.1 {},
   selector_nonempty_and_tag_default.2 {} rfl rfl rfl rfl rfl (by decide)⟩

/-- C4: whenever the element info carries a non-empty identifying path, the
returned Selector contains an `xpath` strategy with that path, after any
`testId` strategy and before every `aria`/`css`/`text` strategy. -/
theorem xpath_strategy_present_and_ordered (e : ElementInfo) (xp : String)
    (hx : e.xpath = some xp) (hne : xp ≠ "") :
    ∃ pre post,
      (extract_selectors_from_element e).strategies =
        pre ++ { type := .xpath, value := xp, tag := none } :: post ∧
      (∀ s ∈ pre, s.type = StrategyType.testId) ∧
      (∀ s ∈ post, s.type = StrategyType.aria ∨ s.type = StrategyType.css ∨
                   s.type = StrategyType.text) := by
  refine ⟨testIdStrategies e.attributes,
          ariaStrategies e.attributes ++ idCssStrategies e.attributes ++
          classCssStrategies e.attributes e.tag ++ textStrategies e.text e.tag,
          ?_, ?_, ?_⟩
  · unfold extract_selectors_from_element xpathStrategies
    rw [hx]
    dsimp only
    rw [if_neg hne]
    split
    · next h => simp at h
    · simp
  · intro s hs
    exact mem_testIdStrategies_type hs
  · intro s hs
    rcases List.mem_append.1 hs with hs | hs
    · rcases List.mem_append.1 hs with hs | hs
      · rcases List.mem_append.1 hs with hs | hs
        · exact Or.inl (mem_ariaStrategies_type hs)
        · exact Or.inr (Or.inl (mem_idCssStrategies_type hs))
      · exact Or.inr (Or.inl (mem_classCssStrategies_type hs))
    · exact Or.inr (Or.inr (mem_textStrategies_type hs))

/-- Witness for C4: a concrete element with a `data-testid` attribute and an
identifying path; the xpath strategy sits between the testId strategy and the
rest. -/
theorem xpath_strategy_present_and_ordered_witness :
    ∃ pre post,
      (extract_selectors_from_element
        { attributes := [("data-testid", "export-btn")], xpath := some "/div[2]/button[1]",
          tag := some "button", text := some "Export" }).strategies =
        pre ++ { type := .xpath, value := "/div[2]/button[1]", tag := none } :: post ∧
      (∀ s ∈ pre, s.type = StrategyType.testId) ∧
      (∀ s ∈ post, s.type = StrategyType.aria ∨ s.type = StrategyType.css ∨
                   s.type = StrategyType.text) :=
  xpath_strategy_present_and_ordered
    { attributes := [("data-testid", "export-btn")], xpath := some "/div[2]/button[1]",
      tag := some "button", text := some "Export" }
    "/div[2]/button[1]" rfl (by decide)

/-- Concrete action for C1: the URL changed, but the post-action URL has no
`/` after the host, and the diff has an added element carrying `data-testid`. -/
def c1Action : RecordedAction :=
  { action_type := "click",
    url_before := "https://a.com/x",
    url_after := "https://a.com",
    resulting_state := some
      { elements_added := some [{ tag := some "div", attributes := [("data-testid", "m")] }] } }

/-- C1 counterexample: for `c1Action` the URL differs across the action, yet
`infer_success_condition` does not return a `urlContains` condition — the
URL-changed branch falls through (the post-action URL has no path segment
after the host) and the added-elements rule produces a `visible` condition. -/
theorem infer_url_change_counterexample :
    c1Action.url_after ≠ c1Action.url_before ∧
    infer_success_condition c1Action none =
      some { visible := some "[data-testid='m']" } ∧
    (infer_success_condition c1Action none).map SuccessCondition.url_contains =
      some none := by
  refine ⟨by decide, by decide, by decide⟩

/-- C1 (amended): for every recorded action whose URL changed across the action
AND whose post-action URL contains a `/` after the host, the inferred condition
is `urlContains` on `"/" ++` the part after that first `/` — regardless of the
resulting-state diff and of the next action. -/
theorem infer_url_change_with_path (a : RecordedAction) (next : Option RecordedAction)
    (h1 : a.url_after ≠ a.url_before)
    (h2 : 1 < (pySplitOnce "/" (pyLastD (pySplitOnce "://" a.url_after) "")).length) :
    infer_success_condition a next =
      some { url_contains := some
               ("/" ++ (pySplitOnce "/" (pyLastD (pySplitOnce "://" a.url_after) "")).getD 1 "") } := by
  unfold infer_success_condition
  dsimp only
  rw [if_pos h1, if_pos h2]

/-- Concrete action for the amended C1's witness: URL changed, post-action URL
has a path segment, and the diff also has added elements. -/
def c1WitnessAction : RecordedAction :=
  { action_type := "click",
    url_before := "h://a/x",
    url_after := "h://a/y",
    resulting_state := some
      { elements_added := some [{ tag := some "div", attributes := [("data-testid", "m")] }] } }

/-- Witness for the amended C1, at an action that also has added elements in
its diff: the URL rule still wins. -/
theorem infer_url_change_with_path_witness :
    infer_success_condition c1WitnessAction none = some { url_contains := some "/y" } :=
  infer_url_change_with_path c1WitnessAction none (by decide) (by decide)

/-- C10: the result of `infer_success_condition` does not depend on its
`next_action` argument — the body never reads it. -/
theorem infer_success_condition_next_independent
    (a : RecordedAction) (n1 n2 : Option RecordedAction) :
    infer_success_condition a n1 = infer_success_condition a n2 := rfl

/-! ## Keyword tokenization lemmas (for C6) -/

theorem string_data_append (s t : String) : (s ++ t).data = s.data ++ t.data := by
  cases s; cases t; rfl

/-- Scanning across a space splits the `\b[a-z]+\b` matches: the space is a
non-word, non-`[a-z]` character, so it closes any pending run exactly the way
end-of-input does and resets the boundary state. -/
theorem regexFindAux_space (ys : List Char) :
    ∀ (xs : List Char) (p r : Bool) (c : List Char),
      regexFindAux p r c (xs ++ ' ' :: ys) =
        regexFindAux p r c xs ++ regexFindAux false true [] ys := by
  intro xs
  induction xs with
  | nil =>
    intro p r c
    have h1 : isLowerAZ ' ' = false := rfl
    have h2 : isWordChar ' ' = false := rfl
    simp [regexFindAux, h1, h2]
  | cons x xs' ih =>
    intro p r c
    simp only [List.cons_append, regexFindAux]
    cases hx : isLowerAZ x with
    | true =>
      cases hc : c.isEmpty with
      | true => simpa using ih _ _ _
      | false => simpa using ih _ _ _
    | false =>
      simp only [Bool.false_eq_true, if_false, List.append_eq]
      rw [ih, List.append_assoc]

/-- C6 (amended): `extract_keywords` returns exactly the lower-cased
`\b[a-z]+\b` tokens of the description followed by those of the label, with
stop-words removed AND tokens of length ≤ 2 removed, deduplicated preserving
first occurrence, capped at 10. -/
theorem extract_keywords_eq_amended_claim (description label : String) :
    extract_keywords description label = keywordsByAmendedClaim description label := by
  unfold extract_keywords keywordsByAmendedClaim regexWordTokens
  dsimp only
  have hdata : (strLower (description ++ " " ++ label)).data =
      (strLower description).data ++ ' ' :: (strLower label).data := by
    unfold strLower
    rw [string_data_append, string_data_append]
    simp [List.map_append]
  rw [hdata, regexFindAux_space, List.map_append, List.filter_append]

/-- C6 counterexample: the claim's keyword rule (no length filter) and the code
disagree on `("sign up", "")` — the code's `len(w) > 2` filter drops `"up"`,
which is not a stop-word. -/
theorem extract_keywords_counterexample :
    keywordsByClaim "sign up" "" = ["sign", "up"] ∧
    extract_keywords "sign up" "" = ["sign"] ∧
    extract_keywords "sign up" "" ≠ keywordsByClaim "sign up" "" := by
  refine ⟨by decide, by decide, by decide⟩

/-- C5 counterexample: an `evaluate` action whose result payload did not parse
as JSON (`payload = none`) is not mapped to the skip set — `_parse_action_type`
keeps it as `"evaluate"` — yet extraction records nothing for it, rather than
recording an action without element metadata. -/
theorem evaluate_unparsed_payload_counterexample :
    parse_action_type "evaluate" = some "evaluate" ∧
    processHistoryAction "evaluate" none {} none "u" "u" = none :=
  ⟨rfl, rfl⟩

/-- C5 (amended): for every `evaluate` action whose result payload does not
parse as a JSON object containing a `tag` field, action extraction drops the
action entirely — the provisional `"evaluate"` type is never rewritten to
`"click"`, so the action is skipped and no recorded action is produced. -/
theorem evaluate_without_tag_skipped (payload : Option JsonVal) (elem : ElementInfo)
    (inp : Option String) (uB uA : String)
    (h : ∀ fields, payload = some (JsonVal.jobj fields) → lookupJson fields "tag" = none) :
    processHistoryAction "evaluate" payload elem inp uB uA = none := by
  cases payload with
  | none => rfl
  | some v =>
    cases v with
    | null => rfl
    | jbool b => rfl
    | jnum n => rfl
    | jstr s => rfl
    | jarr xs => rfl
    | jobj fields =>
      unfold processHistoryAction
      rw [show parse_action_type "evaluate" = some "evaluate" from rfl]
      dsimp only
      rw [h fields rfl]
      cases (lookupJson fields "attributes").getD (JsonVal.jobj []) <;> rfl

/-- Witness for the amended C5: a payload that is a JSON object without a
`tag` field (the agent's own `{"error": "not found"}` shape). -/
theorem evaluate_without_tag_skipped_witness :
    processHistoryAction "evaluate"
      (some (JsonVal.jobj [("error", JsonVal.jstr "not found")])) {} none "u" "u" = none :=
  evaluate_without_tag_skipped
    (some (JsonVal.jobj [("error", JsonVal.jstr "not found")])) {} none "u" "u"
    (by
      intro fields hf
      injection hf with hf'
      injection hf' with hf''
      subst hf''
      rfl)

/-- C7: the step reconciler never propagates a reduction-collaborator failure:
a raised exception, a completion that is not a `ReflectedFlow`, and an empty
step list all yield exactly the deterministic fallback conversion of the raw
click/type/select actions; and every possible outcome yields either that
fallback or the enriched, final-flag-forced collaborator steps. -/
theorem reflect_never_propagates_failure (raw : List RecordedAction) :
    reflectOnActions CollabOutcome.raised raw = rawActionsToReflected raw ∧
    reflectOnActions CollabOutcome.notFlow raw = rawActionsToReflected raw ∧
    reflectOnActions (CollabOutcome.ok []) raw = rawActionsToReflected raw ∧
    ∀ outcome : CollabOutcome,
      (∃ steps, outcome = CollabOutcome.ok steps ∧ steps ≠ [] ∧
        reflectOnActions outcome raw = enrichReflected (forceFinalFlags steps) raw) ∨
      reflectOnActions outcome raw = rawActionsToReflected raw := by
  refine ⟨rfl, rfl, rfl, ?_⟩
  intro outcome
  cases outcome with
  | ok steps =>
    cases steps with
    | nil => exact Or.inr rfl
    | cons s rest => exact Or.inl ⟨s :: rest, rfl, by simp, rfl⟩
  | notFlow => exact Or.inr rfl
  | raised => exact Or.inr rfl

/-- Concrete raw action for C9's second conjunct: its URL changes, so the
raw-actions builder applies the URL-change inference rule there. -/
def c9DemoAction : RecordedAction :=
  { action_type := "click", url_before := "h://a", url_after := "h://a/p" }

/-- C9: every `PathStep` built from collaborator-reflected steps carries the
generic click success condition; the inference rules (here: the URL-change
rule) act only on the raw-actions fallback builder. -/
theorem reflected_path_always_click_condition :
    (∀ steps : List ReflectedAction,
      (buildPathFromReflected steps).all
        (fun p => decide (p.success_condition = some clickCondition)) = true) ∧
    (buildPathFromRawActions [c9DemoAction]).map (·.success_condition) =
      [some { url_contains := some "/p" }] := by
  constructor
  · intro steps
    rw [buildPathFromReflected, List.all_eq_true]
    intro p hp
    rw [List.mem_map] at hp
    obtain ⟨s, -, rfl⟩ := hp
    simp
  · decide

/-- The batch loop of `generate_manifest` characterized: starting from the
resumed targets, it appends exactly the targets generated for the non-skipped
tasks, in task order. -/
theorem generateTargets_foldl (explore : AgentTask → Option ManifestTarget)
    (completed : List String) :
    ∀ (tasks : List AgentTask) (acc : List ManifestTarget),
      tasks.foldl (fun acc task =>
        if completed.contains (generate_id_from_description task.description) then acc
        else
          match explore task with
          | some t => acc ++ [t]
          | none => acc) acc =
      acc ++ (tasks.filter (fun t =>
        !completed.contains (generate_id_from_description t.description))).filterMap explore := by
  intro tasks
  induction tasks with
  | nil => intro acc; simp
  | cons t ts ih =>
    intro acc
    simp only [List.foldl_cons, List.filter_cons]
    by_cases h : completed.contains (generate_id_from_description t.description) = true
    · rw [if_pos h, ih]
      have hm : generate_id_from_description t.description ∈ completed := by simpa using h
      simp [hm]
    · rw [if_neg h, ih]
      have hm : generate_id_from_description t.description ∉ completed := by simpa using h
      cases he : explore t with
      | some x => simp [hm, he, List.filterMap_cons]
      | none => simp [hm, he, List.filterMap_cons]

/-- C8: checkpoint loading returns empty targets and an empty completed-id set
when the `.part` file is missing or unreadable/unparseable; and for a loaded
checkpoint, the batch keeps every previously-persisted target unchanged (as a
prefix of the final target list) and processes exactly the tasks whose
generated id is not among the loaded ids, in order. -/
theorem checkpoint_load_and_skip :
    (loadPartialManifest PartRead.missing = ([], []) ∧
     loadPartialManifest PartRead.failed = ([], [])) ∧
    ∀ (explore : AgentTask → Option ManifestTarget) (tasks : List AgentTask)
      (ts : List ManifestTarget),
      generateManifestTargets explore tasks (PartRead.ok ts) =
        ts ++ (tasks.filter (fun t =>
          !(ts.map (·.id)).contains (generate_id_from_description t.description))).filterMap
            explore := by
  refine ⟨⟨rfl, rfl⟩, ?_⟩
  intro explore tasks ts
  unfold generateManifestTargets loadPartialManifest
  dsimp only
  exact generateTargets_foldl explore (ts.map (·.id)) tasks ts

/-! ## Final-flag invariant (for C2) -/

/-- "Exactly the last entry of this flag list is `true`": the list is
non-empty, its last flag is `true`, and every earlier flag is `false`. -/
def lastOnlyTrue (l : List Bool) : Prop :=
  l ≠ [] ∧ l.getLast? = some true ∧ ∀ b ∈ l.dropLast, b = false

/-- Prepending a `false` flag preserves the invariant. -/
theorem lastOnlyTrue_cons_false {l : List Bool} (h : lastOnlyTrue l) :
    lastOnlyTrue (false :: l) := by
  obtain ⟨hne, hlast, hpre⟩ := h
  obtain ⟨b, l', rfl⟩ := List.exists_cons_of_ne_nil hne
  refine ⟨by simp, by rwa [List.getLast?_cons_cons], ?_⟩
  intro x hx
  rw [show (false :: b :: l').dropLast = false :: (b :: l').dropLast from rfl] at hx
  rcases List.mem_cons.1 hx with rfl | hx
  · rfl
  · exact hpre x hx

/-- A list of all-`false` flags followed by one `true` flag satisfies the
invariant (stated through a projection `f`, as used on step lists). -/
theorem lastOnlyTrue_append_singleton {α : Type} (f : α → Bool) (pre : List α) (x : α)
    (hpre : ∀ s ∈ pre, f s = false) (hx : f x = true) :
    lastOnlyTrue ((pre ++ [x]).map f) := by
  rw [List.map_append]
  refine ⟨by simp, ?_, ?_⟩
  · rw [show List.map f [x] = [f x] from rfl, List.getLast?_concat, hx]
  · intro b hb
    rw [show List.map f [x] = [f x] from rfl, List.dropLast_concat] at hb
    obtain ⟨s, hs, rfl⟩ := List.mem_map.1 hb
    exact hpre s hs

/-- `markLastFinal` on a non-empty list of all-unset flags yields the
exactly-last-final invariant. -/
theorem markLastFinal_lastOnlyTrue :
    ∀ l : List ReflectedAction, l ≠ [] → (∀ s ∈ l, s.is_final = false) →
      lastOnlyTrue ((markLastFinal l).map (·.is_final))
  | [], hne, _ => absurd rfl hne
  | [s], _, _ => ⟨by simp [markLastFinal], by simp [markLastFinal], by simp [markLastFinal]⟩
  | s :: t :: rest, _, hall => by
    have ih := markLastFinal_lastOnlyTrue (t :: rest) (by simp)
      (fun x hx => hall x (List.mem_cons_of_mem s hx))
    rw [show markLastFinal (s :: t :: rest) = s :: markLastFinal (t :: rest) from rfl,
        List.map_cons, hall s (List.mem_cons_self s _)]
    exact lastOnlyTrue_cons_false ih

/-- Enrichment does not touch the `is_final` flags. -/
theorem enrichReflected_map_is_final (steps : List ReflectedAction)
    (raw : List RecordedAction) :
    (enrichReflected steps raw).map (·.is_final) = steps.map (·.is_final) := by
  unfold enrichReflected
  rw [List.map_map]
  apply List.map_congr_left
  intro s _
  dsimp only [Function.comp]
  cases hidx : s.source_action_index with
  | none => rfl
  | some idx =>
    dsimp only
    split
    · cases hget : List.get? raw idx.toNat with
      | none => rfl
      | some a => rfl
    · rfl

/-- Every step produced by the fallback conversion loop has its flag unset. -/
theorem rawToReflectedAux_final_false :
    ∀ (raw : List RecordedAction) (i : Nat), ∀ s ∈ rawToReflectedAux i raw,
      s.is_final = false
  | [], _, s, hs => absurd hs (List.not_mem_nil s)
  | a :: rest, i, s, hs => by
    rw [rawToReflectedAux] at hs
    rcases List.mem_append.1 hs with hs | hs
    · split at hs
      · rw [List.mem_singleton.1 hs]; rfl
      · exact absurd hs (List.not_mem_nil s)
    · exact rawToReflectedAux_final_false rest (i + 1) s hs

/-- The fallback conversion satisfies the invariant whenever it is non-empty. -/
theorem rawActionsToReflected_lastOnlyTrue (raw : List RecordedAction)
    (h : rawActionsToReflected raw ≠ []) :
    lastOnlyTrue ((rawActionsToReflected raw).map (·.is_final)) := by
  unfold rawActionsToReflected at h ⊢
  apply markLastFinal_lastOnlyTrue
  · intro hnil
    rw [hnil] at h
    exact h rfl
  · exact rawToReflectedAux_final_false raw 0

/-- The builder loop distributes over list append, with the running index
advanced by the first part's length. -/
theorem buildRawAux_append (raw : List RecordedAction) :
    ∀ (l₁ l₂ : List RecordedAction) (i : Nat),
      buildRawAux raw i (l₁ ++ l₂) =
        buildRawAux raw i l₁ ++ buildRawAux raw (i + l₁.length) l₂ := by
  intro l₁
  induction l₁ with
  | nil => intro l₂ i; simp [buildRawAux]
  | cons a t ih =>
    intro l₂ i
    simp only [List.cons_append, buildRawAux, List.append_eq, ih, List.length_cons,
      List.append_assoc]
    rw [show i + 1 + t.length = i + (t.length + 1) from by omega]

/-- Every step the builder produces from a suffix that ends strictly before the
final-flag positions has its `final` flag unset: either the suffix ends at or
before index `n - 2`, or it ends at or before `n - 1` while the trace does not
end in a navigate/scroll action. -/
theorem buildRawAux_final_false (raw : List RecordedAction) :
    ∀ (l : List RecordedAction) (i : Nat),
      ((i + l.length : Int) ≤ (raw.length : Int) - 2 ∨
       ((i + l.length : Int) ≤ (raw.length : Int) - 1 ∧ lastIsNavScroll raw = false)) →
      ∀ s ∈ buildRawAux raw i l, s.final = false := by
  intro l
  induction l with
  | nil => intro i _ s hs; exact absurd hs (List.not_mem_nil s)
  | cons a t ih =>
    intro i hbound s hs
    rw [buildRawAux] at hs
    rcases List.mem_append.1 hs with hs | hs
    · have hsa : s = mkRawStep raw i a := by
        split at hs
        · exact absurd hs (List.not_mem_nil s)
        · exact List.mem_singleton.1 hs
      subst hsa
      show rawStepFinal raw i = false
      unfold rawStepFinal
      rcases hbound with h | ⟨h, hns⟩
      · have h1 : ¬((i : Int) = (raw.length : Int) - 1) := by
          simp only [List.length_cons] at h; push_cast at h; omega
        have h2 : ¬((i : Int) = (raw.length : Int) - 2) := by
          simp only [List.length_cons] at h; push_cast at h; omega
        simp [h1, h2]
      · have h1 : ¬((i : Int) = (raw.length : Int) - 1) := by
          simp only [List.length_cons] at h; push_cast at h; omega
        simp [h1, hns]
    · refine ih (i + 1) ?_ s hs
      rcases hbound with h | ⟨h, hns⟩
      · left; simp only [List.length_cons] at h; push_cast at h ⊢; omega
      · right
        refine ⟨?_, hns⟩
        simp only [List.length_cons] at h; push_cast at h ⊢; omega

/-- Case A for the raw builder: the trace ends in a kept (non-navigate/scroll)
action, so the step built from that last action carries the only `true` flag. -/
theorem buildPath_lastKept (raw : List RecordedAction) (a : RecordedAction)
    (hlast : raw.getLast? = some a) (hskip : skipNav a = false) :
    lastOnlyTrue ((buildPathFromRawActions raw).map (·.final)) := by
  obtain ⟨L, hL⟩ : ∃ L, raw = L ++ [a] :=
    ⟨raw.dropLast, (List.dropLast_append_getLast? a hlast).symm⟩
  subst hL
  unfold buildPathFromRawActions
  rw [buildRawAux_append, Nat.zero_add]
  rw [show buildRawAux (L ++ [a]) L.length [a] =
        (if skipNav a then [] else [mkRawStep (L ++ [a]) L.length a]) ++ [] from rfl]
  rw [hskip]
  simp only [Bool.false_eq_true, if_false, List.append_nil]
  apply lastOnlyTrue_append_singleton
  · apply buildRawAux_final_false
    right
    constructor
    · simp
    · unfold lastIsNavScroll
      rw [List.getLast?_concat]
      exact hskip
  · show rawStepFinal (L ++ [a]) L.length = true
    unfold rawStepFinal
    have hlen : (L ++ [a]).length = L.length + 1 := by simp
    rw [hlen]
    have h1 : decide ((L.length : Int) = ((L.length + 1 : Nat) : Int) - 1) = true := by
      rw [decide_eq_true_eq]; push_cast; omega
    rw [h1, Bool.true_or]

/-- Case B for the raw builder: the trace ends in one navigate/scroll action
preceded by a kept action; the step built from that kept action carries the
only `true` flag (the trailing navigate/scroll is skipped). -/
theorem buildPath_secondLastKept (raw : List RecordedAction) (b c : RecordedAction)
    (hlast : raw.getLast? = some c) (hcskip : skipNav c = true)
    (hb : raw.dropLast.getLast? = some b) (hbskip : skipNav b = false) :
    lastOnlyTrue ((buildPathFromRawActions raw).map (·.final)) := by
  obtain ⟨D, hD⟩ : ∃ D, raw = D ++ [c] :=
    ⟨raw.dropLast, (List.dropLast_append_getLast? c hlast).symm⟩
  have hDrop : raw.dropLast = D := by rw [hD, List.dropLast_concat]
  rw [hDrop] at hb
  obtain ⟨M, hM⟩ : ∃ M, D = M ++ [b] :=
    ⟨D.dropLast, (List.dropLast_append_getLast? b hb).symm⟩
  have hraw : raw = M ++ [b, c] := by rw [hD, hM]; simp
  clear hD hDrop hb hM hlast
  subst hraw
  unfold buildPathFromRawActions
  rw [buildRawAux_append, Nat.zero_add]
  have hbc : buildRawAux (M ++ [b, c]) M.length [b, c] =
      [mkRawStep (M ++ [b, c]) M.length b] := by
    rw [show buildRawAux (M ++ [b, c]) M.length [b, c] =
          (if skipNav b then [] else [mkRawStep (M ++ [b, c]) M.length b]) ++
          ((if skipNav c then [] else [mkRawStep (M ++ [b, c]) (M.length + 1) c]) ++ []) from
          rfl]
    rw [hbskip, hcskip]
    simp
  rw [hbc]
  have hlen : (M ++ [b, c]).length = M.length + 2 := by simp
  have hgl : (M ++ [b, c]).getLast? = some c := by
    rw [show (M ++ [b, c] : List RecordedAction) = (M ++ [b]) ++ [c] from by simp]
    exact List.getLast?_concat _
  have hns : lastIsNavScroll (M ++ [b, c]) = true := by
    unfold lastIsNavScroll
    rw [hgl]
    exact hcskip
  apply lastOnlyTrue_append_singleton
  · apply buildRawAux_final_false
    left
    rw [hlen]
    push_cast
    omega
  · show rawStepFinal (M ++ [b, c]) M.length = true
    unfold rawStepFinal
    rw [hlen]
    have h1 : decide ((M.length : Int) = ((M.length + 2 : Nat) : Int) - 1) = false := by
      rw [decide_eq_false_iff_not]; push_cast; omega
    have h2 : decide ((M.length : Int) = ((M.length + 2 : Nat) : Int) - 2) = true := by
      rw [decide_eq_true_eq]; push_cast; omega
    rw [h1, h2, hns]
    rfl

/-- C2 (amended): every non-empty step list produced by the reflection path or
its fallback conversion has exactly its last step marked final.  For the
raw-action path builder the same holds whenever the raw trace ends in a kept
(click/type/select/other non-navigate/scroll) action, or ends in a single
navigate/scroll action preceded by a kept one; with two or more trailing
navigate/scroll actions the non-empty path has no final step at all (see the
counterexample). -/
theorem step_final_flags_amended :
    (∀ (outcome : CollabOutcome) (raw : List RecordedAction),
      reflectOnActions outcome raw ≠ [] →
      lastOnlyTrue ((reflectOnActions outcome raw).map (·.is_final))) ∧
    (∀ raw : List RecordedAction,
      ((∃ a, raw.getLast? = some a ∧ skipNav a = false) ∨
       (∃ b, raw.dropLast.getLast? = some b ∧ skipNav b = false)) →
      lastOnlyTrue ((buildPathFromRawActions raw).map (·.final))) := by
  constructor
  · intro outcome raw hne
    cases outcome with
    | ok steps =>
      by_cases hs : steps.isEmpty = true
      · rw [reflectOnActions] at hne ⊢
        rw [if_pos hs] at hne ⊢
        exact rawActionsToReflected_lastOnlyTrue raw hne
      · rw [reflectOnActions] at hne ⊢
        rw [if_neg hs] at hne ⊢
        rw [enrichReflected_map_is_final]
        unfold forceFinalFlags
        apply markLastFinal_lastOnlyTrue
        · have hsne : steps ≠ [] := fun h => hs (by rw [h]; rfl)
          simpa using hsne
        · intro s hsm
          obtain ⟨x, -, rfl⟩ := List.mem_map.1 hsm
          rfl
    | notFlow => exact rawActionsToReflected_lastOnlyTrue raw hne
    | raised => exact rawActionsToReflected_lastOnlyTrue raw hne
  · intro raw hg
    rcases hg with ⟨a, hlast, hskip⟩ | ⟨b, hb, hbskip⟩
    · exact buildPath_lastKept raw a hlast hskip
    · have hne : raw ≠ [] := by
        intro h
        rw [h] at hb
        simp at hb
      obtain ⟨c, hc⟩ : ∃ c, raw.getLast? = some c := by
        cases hx : raw.getLast? with
        | some c => exact ⟨c, rfl⟩
        | none => exact absurd (List.getLast?_eq_none_iff.1 hx) hne
      by_cases hcs : skipNav c = true
      · exact buildPath_secondLastKept raw b c hc hcs hb hbskip
      · exact buildPath_lastKept raw c hc (eq_false_of_ne_true hcs)

/-- Reflected step used by the witness of the amended C2. -/
def c2WitnessStep : ReflectedAction :=
  { action := "click", instruction := "Click the button" }

/-- Raw trace used by the witness of the amended C2: a click followed by a
single trailing navigate. -/
def c2WitnessRaw : List RecordedAction :=
  [{ action_type := "click", url_before := "u", url_after := "u" },
   { action_type := "navigate", url_before := "u", url_after := "u" }]

/-- Witness for the amended C2: on a one-step collaborator result the reflection
path marks exactly the last step final, and on a click-then-navigate raw trace
the raw builder does too. -/
theorem step_final_flags_amended_witness :
    lastOnlyTrue ((reflectOnActions (CollabOutcome.ok [c2WitnessStep]) []).map (·.is_final)) ∧
    lastOnlyTrue ((buildPathFromRawActions c2WitnessRaw).map (·.final)) :=
  ⟨step_final_flags_amended.1 (CollabOutcome.ok [c2WitnessStep]) [] (by decide),
   step_final_flags_amended.2 c2WitnessRaw
     (Or.inr ⟨{ action_type := "click", url_before := "u", url_after := "u" },
       by decide, by decide⟩)⟩

/-- Raw trace for the C2 counterexample: a click followed by two navigates. -/
def c2CexRaw : List RecordedAction :=
  [{ action_type := "click", url_before := "u", url_after := "u" },
   { action_type := "navigate", url_before := "u", url_after := "u" },
   { action_type := "navigate", url_before := "u", url_after := "u" }]

/-- C2 counterexample: on a raw trace ending in two navigate actions the raw
path builder produces a non-empty path whose single step has `final = false` —
no step in the list is final, contradicting the claimed invariant. -/
theorem raw_path_no_final_counterexample :
    buildPathFromRawActions c2CexRaw ≠ [] ∧
    (buildPathFromRawActions c2CexRaw).map (·.final) = [false] :=
  ⟨by decide, by decide⟩
